import Mathlib

/-!
Verification development for the StatisticalClearSky repository.

The repository contains two source files:
* `clearsky/main.py` (class `IterativeClearSky`): weight computation,
  objective evaluation, the `min_L` / `min_R` convex sub-problems and the
  alternating-minimization loop `minimize_objective`.
* `statistical_clear_sky/algorithm/iterative_fitting.py` (class
  `IterativeFitting`): the orchestrated fitting loop `_minimize_objective`
  with state snapshots, diagnostic flags and exception handling, and the
  objective evaluator `_calculate_objective`.

Modelling conventions:
* Python/NumPy floats are modelled as rationals (`ℚ`); matrices are lists of
  rows (`List (List ℚ)`).  NumPy slicing (`A[:-2]`, `A[1:]`, `A[:, 365:]`,
  boolean masks, `axis` reductions) is translated with `List.take`,
  `List.drop`, `List.zipWith` and explicit column extraction.
* The Frobenius norm (`numpy.linalg.norm(·, 'fro')` / `cvx.norm(·, 'fro')`)
  returns irrational square roots; it is kept as an explicit function
  parameter `froNorm`.  Every statement proved below holds for an arbitrary
  realization of that parameter.
* The convex solver backend (cvxpy/MOSEK/ECOS) is an external collaborator:
  the left/right minimizers are oracles returning either new variable values
  or a solver exception, exactly as the orchestration code consumes them.
* The `while` loops are embedded with explicit fuel; theorems either supply
  sufficient fuel or prove that the guard fails within the given fuel.
* The weight pipeline's values are IEEE-754 doubles: its two divisions can
  produce `±inf` and `nan`, which propagate through `clip`, `power` and
  `multiply`; they are modelled by `FVal` (a finite real via `Real.rpow`,
  an infinity, or `nan`) with the IEEE rules made explicit.
-/

/-! ### Rational vectors and matrices -/

abbrev QVec := List ℚ

abbrev QMat := List (List ℚ)

/-- Number of columns (length of the first row), `A.shape[1]`. -/
def numCols (A : QMat) : ℕ := (A.headD []).length

/-- Row 0 of a matrix, `A[0, :]`. -/
def row0 (A : QMat) : QVec := A.headD []

/-- Column `j` of a matrix, `A[:, j]`. -/
def colOf (A : QMat) (j : ℕ) : QVec := A.map (fun r => r.getD j 0)

/-- Dot product of two vectors. -/
def dotProd (u v : QVec) : ℚ := (List.zipWith (fun a b => a * b) u v).sum

/-- Matrix product `A.dot(B)`. -/
def matMul (A B : QMat) : QMat :=
  A.map (fun r => (List.range (numCols B)).map (fun j => dotProd r (colOf B j)))

/-- Elementwise difference `A - B`. -/
def matSub (A B : QMat) : QMat :=
  List.zipWith (fun r s => List.zipWith (fun a b => a - b) r s) A B

/-- Sum of all entries, `cvx.sum(A)` / `np.sum(A)`. -/
def matTotalSum (A : QMat) : ℚ := (A.map (fun r => r.sum)).sum

/-- Diagonal matrix `np.diag(w)`. -/
def diagM (w : QVec) : QMat :=
  (List.range w.length).map (fun i =>
    (List.range w.length).map (fun j => if i = j then w.getD i 0 else 0))

/-- Identity matrix `np.eye(k)`. -/
def eyeM (k : ℕ) : QMat :=
  (List.range k).map (fun i => (List.range k).map (fun j => if i = j then (1 : ℚ) else 0))

/-- The asymmetric (quantile) loss expression applied elementwise:
`0.5 * abs(E) + (tau - 0.5) * E`. -/
def quantileExpr (tau : ℚ) (E : QMat) : QMat :=
  E.map (fun r => r.map (fun e => 1/2 * |e| + (tau - 1/2) * e))

/-- Second difference along a vector: `v[:-2] - 2*v[1:-1] + v[2:]`. -/
def diff2Vec (v : QVec) : QVec :=
  List.zipWith (fun a b => a + b)
    (List.zipWith (fun a b => a - 2 * b) v (v.drop 1)) (v.drop 2)

/-- Second difference across rows: `A[:-2] - 2*A[1:-1] + A[2:]`. -/
def diff2Rows (A : QMat) : QMat :=
  List.zipWith (fun r s => List.zipWith (fun a b => a + b) r s)
    (List.zipWith (fun r s => List.zipWith (fun a b => a - 2 * b) r s) A (A.drop 1))
    (A.drop 2)

/-- Second difference across columns: `A[:, :-2] - 2*A[:, 1:-1] + A[:, 2:]`. -/
def diff2Cols (A : QMat) : QMat := A.map diff2Vec

/-- The slice `R[1:, :-365]` of the annual-periodicity penalty. -/
def annualSliceEarly (R : QMat) : QMat :=
  (R.drop 1).map (fun row => row.take (row.length - 365))

/-- The slice `R[1:, 365:]` of the annual-periodicity penalty. -/
def annualSliceLate (R : QMat) : QMat :=
  (R.drop 1).map (fun row => row.drop 365)

/-! ### The objective evaluator

Embedding of `IterativeFitting._calculate_objective` (and equivalently of
`IterativeClearSky.calc_objective`), returning the component list
`[f1, f2, f3, f4]`; callers take `List.sum` for the `sum_components` form.
The unused `betaValue` argument is kept because the source keeps it. -/

def calculateObjective (froNorm : QMat → ℚ) (powerSignalsD : QMat) (rankK : ℕ)
    (muL muR tau : ℚ) (lCsValue rCsValue : QMat) (betaValue : ℚ) (weights : QVec) :
    List ℚ :=
  let _ := betaValue
  let weightsW1 := diagM weights
  let termF1 := matTotalSum
    (matMul (quantileExpr tau (matSub powerSignalsD (matMul lCsValue rCsValue))) weightsW1)
  let weightsW2 := eyeM rankK
  let termF2 := muL * froNorm (matMul (diff2Rows lCsValue) weightsW2)
  let termF3 := muR * froNorm (diff2Cols rCsValue)
  let termF4 :=
    if numCols rCsValue < 365 + 2 then 0
    else muR * froNorm (matSub (annualSliceEarly rCsValue) (annualSliceLate rCsValue))
  [termF1, termF2, termF3, termF4]

/-! ### The iterative fitting loop of `IterativeFitting._minimize_objective`

The left and right matrix minimizations (modules `LeftMatrixMinimization`
and `RightMatrixMinimization`) each invoke the external convex solver and
either return new variable values or raise `cvxpy.SolverError` /
`ProblemStatusError`.  They are modelled as oracles
`Triple → Except SolverExc Triple`. -/

/-- Solver exceptions raised by the minimizers: `cvx.SolverError` or
`ProblemStatusError` (which carries a message). -/
inductive SolverExc where
  | solverError : SolverExc
  | problemStatusError : String → SolverExc
deriving DecidableEq, Repr

/-- Returns `true` exactly for `cvx.SolverError`. -/
def SolverExc.isSolver : SolverExc → Bool
  | .solverError => true
  | .problemStatusError _ => false

/-- The variable values `(l_cs_value, r_cs_value, beta_value)` threaded
through the loop. -/
structure Triple where
  l : QMat
  r : QMat
  beta : ℚ
deriving DecidableEq, Repr

instance : Inhabited Triple := ⟨⟨[], [], 0⟩⟩

/-- The fields of `StateData` that `_minimize_objective` reads or writes:
the minimization snapshot (`_store_minimization_state_data`) and the four
diagnostic/failure flags. -/
structure StateData where
  muL : ℚ := 0
  muR : ℚ := 0
  tau : ℚ := 0
  lValue : QMat := []
  rValue : QMat := []
  betaValue : ℚ := 0
  componentR0 : QVec := []
  f1Increase : Bool := false
  objIncrease : Bool := false
  isSolverError : Bool := false
  isProblemStatusError : Bool := false
deriving DecidableEq, Repr

/-- Embedding of `IterativeFitting._store_minimization_state_data`. -/
def storeMinimizationStateData (muL muR tau : ℚ) (t : Triple) (c0 : QVec)
    (sd : StateData) : StateData :=
  { sd with
    muL := muL
    muR := muR
    tau := tau
    lValue := t.l
    rValue := t.r
    betaValue := t.beta
    componentR0 := c0 }

/-- Configuration and collaborators of one `_minimize_objective` call. -/
structure FitParams where
  froNorm : QMat → ℚ
  powerSignalsD : QMat
  rankK : ℕ
  weights : QVec
  muL : ℚ
  muR : ℚ
  tau : ℚ
  exitCriterionEpsilon : ℚ
  maxIteration : ℕ
  leftMin : Triple → Except SolverExc Triple
  rightMin : Triple → Except SolverExc Triple

/-- The objective components for the current variable values
(`self._calculate_objective(mu_l, mu_r, tau, l, r, beta, weights, False)`). -/
def calcObj (p : FitParams) (t : Triple) : List ℚ :=
  calculateObjective p.froNorm p.powerSignalsD p.rankK p.muL p.muR p.tau
    t.l t.r t.beta p.weights

/-- Fractional improvement `(old_objective_value - new_objective_value) * 1. /
old_objective_value`. -/
def rawImprovement (oldObjectiveValue newObjectiveValue : ℚ) : ℚ :=
  (oldObjectiveValue - newObjectiveValue) * 1 / oldObjectiveValue

/-- Ghost trace record for one completed loop iteration. -/
structure IterRecord where
  triple : Triple
  objComponents : List ℚ
  newObjectiveValue : ℚ
  improvementRaw : ℚ
  improvementUsed : ℚ
  f1IncreaseSet : Bool
  objIncreaseSet : Bool
deriving DecidableEq, Repr

instance : Inhabited IterRecord := ⟨⟨default, [], 0, 0, 0, false, false⟩⟩

/-- The loop-carried state of `_minimize_objective`: `improvement = none`
models the initial `np.inf`. -/
structure LoopState where
  improvement : Option ℚ
  oldObjectiveValue : ℚ
  iteration : ℕ
  f1Last : ℚ
  triple : Triple
  componentR0 : QVec
  stateData : StateData
  trace : List IterRecord
deriving DecidableEq, Repr

/-- The `while improvement >= exit_criterion_epsilon` guard (`np.inf`
compares `≥` against any rational bound). -/
def loopGuard (eps : ℚ) : Option ℚ → Bool
  | none => true
  | some v => decide (eps ≤ v)

/-- The raw fractional improvement computed by the iteration that produced
the new values `t2`. -/
def stepImprovementRaw (p : FitParams) (s : LoopState) (t2 : Triple) : ℚ :=
  rawImprovement s.oldObjectiveValue (calcObj p t2).sum

/-- The improvement value left in the loop variable at the end of the
iteration: its absolute value is taken when the objective increased
(`improvement *= -1`), and it is forced to `0` when the iteration count
reaches `max_iteration`. -/
def stepImprovementUsed (p : FitParams) (s : LoopState) (t2 : Triple) : ℚ :=
  let rawImp := stepImprovementRaw p s t2
  let imp1 := if rawImp < 0 then -rawImp else rawImp
  if p.maxIteration ≤ s.iteration + 1 then 0 else imp1

/-- The ghost trace record written by one successful iteration. -/
def nextRecord (p : FitParams) (s : LoopState) (t2 : Triple) : IterRecord :=
  { triple := t2
    objComponents := calcObj p t2
    newObjectiveValue := (calcObj p t2).sum
    improvementRaw := stepImprovementRaw p s t2
    improvementUsed := stepImprovementUsed p s t2
    f1IncreaseSet := decide (s.f1Last < (calcObj p t2).headD 0)
    objIncreaseSet := decide (stepImprovementRaw p s t2 < 0) }

/-- The state produced by one successful loop iteration (lines 147-191 of
`iterative_fitting.py`): snapshot, left then right minimization results
`t2`, refresh of `component_r0` from row 0 of the new `R`, objective and
improvement computation, the `f1`/objective-increase flags
(`objective_values[0] > f1_last` — `f1_last` is set before the loop and
never updated — and `improvement < 0`), the forced `improvement = 0` at
the iteration cap, and the closing snapshot. -/
def nextState (p : FitParams) (s : LoopState) (t2 : Triple) : LoopState :=
  let sd1 := storeMinimizationStateData p.muL p.muR p.tau s.triple s.componentR0 s.stateData
  let c0 := row0 t2.r
  let comps := calcObj p t2
  let rawImp := stepImprovementRaw p s t2
  let sd2 := if s.f1Last < comps.headD 0 then { sd1 with f1Increase := true } else sd1
  let sd3 := if rawImp < 0 then { sd2 with objIncrease := true } else sd2
  let sd4 := storeMinimizationStateData p.muL p.muR p.tau t2 c0 sd3
  { improvement := some (stepImprovementUsed p s t2)
    oldObjectiveValue := comps.sum
    iteration := s.iteration + 1
    f1Last := s.f1Last
    triple := t2
    componentR0 := c0
    stateData := sd4
    trace := s.trace ++ [nextRecord p s t2] }

/-- One execution of the loop body.  A solver exception from either
minimizer aborts the iteration; the `StateData` at that moment (holding the
snapshot taken at the start of the iteration) and the trace so far are
returned with the exception. -/
def iterStep (p : FitParams) (s : LoopState) :
    Except (SolverExc × StateData × List IterRecord) LoopState :=
  let sd1 := storeMinimizationStateData p.muL p.muR p.tau s.triple s.componentR0 s.stateData
  match p.leftMin s.triple with
  | .error e => .error (e, sd1, s.trace)
  | .ok t1 =>
    match p.rightMin t1 with
    | .error e => .error (e, sd1, s.trace)
    | .ok t2 => .ok (nextState p s t2)

/-- The observable outcome of `_minimize_objective`: the state data, the
ghost iteration trace, the published result accessors
(`_l_cs_value`, `_r_cs_value`, `_beta_value`), whether `_analyze_residuals`
ran, which exception (if any) aborted the loop, and whether the loop
finished within the supplied fuel. -/
structure FitOutcome where
  stateData : StateData
  trace : List IterRecord
  lCsValue : QMat
  rCsValue : QMat
  betaValue : ℚ
  residualsAnalyzed : Bool
  failure : Option SolverExc
  completed : Bool
deriving Repr

/-- The two `except` clauses: `cvx.SolverError` sets `is_solver_error`,
`ProblemStatusError` sets `is_problem_status_error`. -/
def setFailureFlag : SolverExc → StateData → StateData
  | .solverError, sd => { sd with isSolverError := true }
  | .problemStatusError _, sd => { sd with isProblemStatusError := true }

/-- The fuel-indexed loop.  On a solver exception the corresponding failure
flag is set (the two `except` clauses), the published accessors keep the
initial values installed by `_obtain_initial_values`, and residual analysis
is skipped; on normal exit (`else` clause) the final values are published
and residual analysis runs. -/
def loopGo (p : FitParams) (initialTriple : Triple) : ℕ → LoopState → FitOutcome
  | 0, s =>
      { stateData := s.stateData
        trace := s.trace
        lCsValue := initialTriple.l
        rCsValue := initialTriple.r
        betaValue := initialTriple.beta
        residualsAnalyzed := false
        failure := none
        completed := false }
  | fuel + 1, s =>
      if loopGuard p.exitCriterionEpsilon s.improvement then
        match iterStep p s with
        | .error (e, sd, tr) =>
            { stateData := setFailureFlag e sd
              trace := tr
              lCsValue := initialTriple.l
              rCsValue := initialTriple.r
              betaValue := initialTriple.beta
              residualsAnalyzed := false
              failure := some e
              completed := true }
        | .ok s' => loopGo p initialTriple fuel s'
      else
        { stateData := s.stateData
          trace := s.trace
          lCsValue := s.triple.l
          rCsValue := s.triple.r
          betaValue := s.triple.beta
          residualsAnalyzed := true
          failure := none
          completed := true }

/-- The loop state on entry: `improvement = np.inf`, `old_objective_value`
and `f1_last` from the objective at the initial values, `iteration = 0`. -/
def initialLoopState (p : FitParams) (t0 : Triple) (c0 : QVec) (sd0 : StateData) :
    LoopState :=
  let comps0 := calcObj p t0
  { improvement := none
    oldObjectiveValue := comps0.sum
    iteration := 0
    f1Last := comps0.headD 0
    triple := t0
    componentR0 := c0
    stateData := sd0
    trace := [] }

/-- Embedding of `IterativeFitting._minimize_objective`, entered with
initial values `t0`, initial `component_r0` `c0` and state data `sd0`. -/
def minimizeObjective (p : FitParams) (t0 : Triple) (c0 : QVec) (sd0 : StateData)
    (fuel : ℕ) : FitOutcome :=
  loopGo p t0 fuel (initialLoopState p t0 c0 sd0)

/-- The variable values recorded by the most recent completed iteration
(the values entering the in-flight iteration), or the initial values when
no iteration completed. -/
def lastTriple (tr : List IterRecord) (t0 : Triple) : Triple :=
  ((tr.getLast?).map IterRecord.triple).getD t0

/-- The `component_r0` in force after the most recent completed iteration. -/
def lastComponentR0 (tr : List IterRecord) (c0 : QVec) : QVec :=
  ((tr.getLast?).map (fun rec => row0 rec.triple.r)).getD c0

/-! ### `clearsky/main.py`: `IterativeClearSky.min_L`, `min_R` and
`minimize_objective`

The cvxpy backend is modelled as an oracle that, for the problem built from
the current state, reports a status string and candidate variable values
(`problem.status`, `variable.value`). -/

/-- The mutable fields of `IterativeClearSky` used by the loop. -/
structure CSState where
  lCs : QMat
  rCs : QMat
  beta : ℚ
  r0 : QVec
  weights : QVec
  goodFit : Bool
deriving DecidableEq, Repr

/-- Backend answer for a `min_L` solve: `problem.status` and the value
assigned to the variable `L_cs`. -/
structure LSolverResponse where
  status : String
  lValue : QMat
deriving DecidableEq, Repr

/-- Backend answer for a `min_R` solve: `problem.status` and the values
assigned to `R_cs` and `beta`. -/
structure RSolverResponse where
  status : String
  rValue : QMat
  betaValue : ℚ
deriving DecidableEq, Repr

/-- Mean of a vector, `np.average(v)`. -/
def rowAverage (v : QVec) : ℚ := v.sum / v.length

/-- Column average of a matrix, `np.average(D[:, j])`: the reading that the
specification's dropout-day sentence describes; compare the code's per-row
`np.average(D, axis=1)` mask in `minLConstraintsHold`. -/
def colAverage (d : QMat) (j : ℕ) : ℚ := (colOf d j).sum / d.length

/-- The constraint set of the `min_L` convex program (main.py lines
130-134), as a predicate on a candidate value of the variable `L_cs`:
`L_cs * R_cs.value >= 0`, `L_cs[np.average(D, axis=1) <= 1e-5, :] == 0`
(note: `axis=1` averages each ROW of `D`), and
`cvx.sum(L_cs[:, 1:], axis=0) == 0`. -/
def minLConstraintsHold (d rFixed lVar : QMat) : Prop :=
  (∀ row ∈ matMul lVar rFixed, ∀ x ∈ row, 0 ≤ x) ∧
  (∀ i, i < d.length → rowAverage (d.getD i []) ≤ 1/100000 →
    ∀ x ∈ lVar.getD i [], x = 0) ∧
  (∀ j, j < numCols lVar → 1 ≤ j → (colOf lVar j).sum = 0)

/-- The specification's reading of the dropout constraint, for comparison:
rows of `L` indexed by near-zero-average COLUMNS of `D` vanish. -/
def specDropoutColumnsZeroRows (d lVar : QMat) : Prop :=
  ∀ j, j < numCols d → colAverage d j ≤ 1/100000 → ∀ x ∈ lVar.getD j [], x = 0

/-- Embedding of `IterativeClearSky.min_L`: raise `ProblemStatusError` exactly when the
reported status differs from `'optimal'`; otherwise the solved `L_cs`
value is installed.  (The source's message string says `Minimize R` in both
minimizers.) -/
def min_L (st : CSState) (resp : LSolverResponse) : Except String CSState :=
  if resp.status ≠ "optimal" then
    .error ("Minimize R status: " ++ resp.status)
  else
    .ok { st with lCs := resp.lValue }

/-- The degradation constraint built by `min_R` (main.py line 158):
`cvx.multiply(1./r0[:-365], r[365:] - r[:-365]) == beta`, elementwise over
the 365-day-lag overlap. -/
def degradationConstraint (r0Ref : QVec) (rRow : QVec) (betaValue : ℚ) : Prop :=
  ∀ i, i + 365 < rRow.length →
    (rRow.getD (i + 365) 0 - rRow.getD i 0) / r0Ref.getD i 0 = betaValue

/-- Embedding of `IterativeClearSky.min_R`: raise `ProblemStatusError` exactly when the
reported status differs from `'optimal'`; on success install the solved
`R_cs` and `beta` values and refresh `r0` from row 0 of the new `R`
(main.py line 175). -/
def min_R (st : CSState) (resp : RSolverResponse) : Except String CSState :=
  if resp.status ≠ "optimal" then
    .error ("Minimize R status: " ++ resp.status)
  else
    .ok { st with
          rCs := resp.rValue
          beta := resp.betaValue
          r0 := row0 resp.rValue }

/-- Embedding of `self.weights[self.test_days] = 0` (main.py lines 104-105). -/
def zeroTestDays (w : QVec) (testDays : Option (List ℕ)) : QVec :=
  match testDays with
  | none => w
  | some days => List.zipWith (fun i x => if i ∈ days then 0 else x) (List.range w.length) w

/-- Configuration and collaborators of `IterativeClearSky.minimize_objective`.
`muL`, `muR`, `tau`, `k` are the instance fields set in `__init__`
(`1.`, `20.`, `0.8`, rank); the solver oracles answer the `min_L` / `min_R`
problems built from the current state. -/
structure CSParams where
  froNorm : QMat → ℚ
  d : QMat
  k : ℕ
  muL : ℚ
  muR : ℚ
  tau : ℚ
  eps : ℚ
  maxIter : ℕ
  testDays : Option (List ℕ)
  leftSolve : CSState → LSolverResponse
  rightSolve : CSState → RSolverResponse

/-- Embedding of `IterativeClearSky.calc_objective()` (the summed form) at a state. -/
def csObjective (p : CSParams) (st : CSState) : ℚ :=
  (calculateObjective p.froNorm p.d p.k p.muL p.muR p.tau
      st.lCs st.rCs st.beta st.weights).sum

/-- Ghost trace record of one `minimize_objective` iteration: the `r0`
reference read when building `min_R`'s degradation constraint, the solved
`R`, the refreshed `r0`, and the iteration's bookkeeping. -/
structure CSIterRecord where
  r0Used : QVec
  rSolved : QMat
  r0After : QVec
  newObjectiveValue : ℚ
  improvementUsed : ℚ
deriving DecidableEq, Repr

instance : Inhabited CSIterRecord := ⟨⟨[], [], [], 0, 0⟩⟩

/-- Loop-carried state of `minimize_objective`. -/
structure CSLoopState where
  st : CSState
  improvement : Option ℚ
  oldObjectiveValue : ℚ
  it : ℕ
  trace : List CSIterRecord
deriving DecidableEq, Repr

/-- One body execution of the `minimize_objective` loop (main.py lines
103-119): zero the reserved test days, `min_L`, `min_R` (whose degradation
constraint reads the current `self.r0`), objective, improvement,
`good_fit` flag and absolute value on an objective increase, forced
`improvement = 0` at the iteration cap.  A `ProblemStatusError` from either
minimizer propagates (there is no `try` in main.py). -/
def csIterStep (p : CSParams) (s : CSLoopState) : Except String CSLoopState :=
  let st0 := { s.st with weights := zeroTestDays s.st.weights p.testDays }
  match min_L st0 (p.leftSolve st0) with
  | .error msg => .error msg
  | .ok st1 =>
    let r0UsedV := st1.r0
    match min_R st1 (p.rightSolve st1) with
    | .error msg => .error msg
    | .ok st2 =>
      let newObj := csObjective p st2
      let rawImp := rawImprovement s.oldObjectiveValue newObj
      let it' := s.it + 1
      let st3 := if rawImp < 0 then { st2 with goodFit := false } else st2
      let imp1 := if rawImp < 0 then -rawImp else rawImp
      let imp2 := if p.maxIter ≤ it' then 0 else imp1
      .ok { st := st3
            improvement := some imp2
            oldObjectiveValue := newObj
            it := it'
            trace := s.trace ++ [⟨r0UsedV, st2.rCs, st2.r0, newObj, imp2⟩] }

/-- The fuel-indexed `minimize_objective` loop; returns the loop state when
the guard fails (or fuel runs out) and propagates solver status errors. -/
def csLoopGo (p : CSParams) : ℕ → CSLoopState → Except String CSLoopState
  | 0, s => .ok s
  | fuel + 1, s =>
      if loopGuard p.eps s.improvement then
        match csIterStep p s with
        | .error msg => .error msg
        | .ok s' => csLoopGo p fuel s'
      else .ok s

/-- The loop state on entry to `minimize_objective`. -/
def csInitialState (p : CSParams) (st0 : CSState) : CSLoopState :=
  { st := st0
    improvement := none
    oldObjectiveValue := csObjective p st0
    it := 0
    trace := [] }

/-- The iteration trace of a `minimize_objective` run (empty if the run
raised). -/
def csRunTrace (p : CSParams) (fuel : ℕ) (st0 : CSState) : List CSIterRecord :=
  match csLoopGo p fuel (csInitialState p st0) with
  | .ok s => s.trace
  | .error _ => []

/-! ### The clear-day weight computation (`IterativeClearSky.__init__`,
main.py lines 52-65)

The daily-energy envelope `x` is produced by a cvxpy solve (the 1-D
quantile-smoothing subproblem); it enters as the oracle input `xEnv`.
The two NumPy divisions (`tc /= np.max(tc)` and `np.divide(de, x)`) follow
IEEE-754 semantics: dividing a nonzero value by zero yields `±inf`, `0/0`
yields `nan`, `nan` propagates through `clip`, `power` and `multiply`, and
every comparison against `nan` is false.  Weight values are therefore
modelled by `FVal` — a finite real, an infinity, or `nan` — while the exact
rational arithmetic before the divisions stays over `ℚ`. -/

/-- Per-day (column) energies, `np.sum(D, axis=0)`. -/
def colSums (d : QMat) : QVec := (List.range (numCols d)).map (fun j => (colOf d j).sum)

/-- Embedding of `np.linalg.norm(D[:-2] - 2*D[1:-1] + D[2:], ord=1, axis=0)`: per-column
L1 norms of the row-wise second difference.  A matrix with fewer than three
rows yields the zero vector, as in NumPy. -/
def tcRawSignal (d : QMat) : QVec :=
  (List.range (numCols d)).map
    (fun j => ((diff2Rows d).map (fun row => |row.getD j 0|)).sum)

/-- Embedding of `np.percentile(v, 50)` with the default linear interpolation: the middle
element of the sorted data for odd length, the mean of the two middle
elements for even length. -/
def percentile50 (v : QVec) : ℚ :=
  let s := v.insertionSort (· ≤ ·)
  if v.length % 2 = 1 then s.getD (v.length / 2) 0
  else (s.getD (v.length / 2 - 1) 0 + s.getD (v.length / 2) 0) / 2

/-- Maximum of a nonempty vector, `np.max` (junk value 0 on empty input, which
NumPy rejects). -/
def maxListQ : QVec → ℚ
  | [] => 0
  | x :: xs => xs.foldl max x

/-- An IEEE-754 double as the weight pipeline sees it: a finite value, an
infinity, or `nan`. -/
inductive FVal where
  | fin : ℝ → FVal
  | inf : FVal
  | ninf : FVal
  | nan : FVal

/-- IEEE division of two finite (exact rational) values: a zero divisor
yields `nan` for `0/0` and `±inf` otherwise. -/
noncomputable def fdiv (a b : ℚ) : FVal :=
  if b = 0 then
    if a = 0 then FVal.nan else if 0 < a then FVal.inf else FVal.ninf
  else FVal.fin ((a : ℝ) / (b : ℝ))

/-- Embedding of `np.clip(·, 0, None)` on an IEEE value: `nan` propagates,
`-inf` clips to `0`, `+inf` stays. -/
noncomputable def FVal.clipLow0 : FVal → FVal
  | .fin x => .fin (max x 0)
  | .inf => .inf
  | .ninf => .fin 0
  | .nan => .nan

/-- Embedding of `np.clip(·, 0, 1)` on an IEEE value: `nan` propagates, the
infinities clip to the interval bounds. -/
noncomputable def FVal.clip01 : FVal → FVal
  | .fin x => .fin (min (max x 0) 1)
  | .inf => .fin 1
  | .ninf => .fin 0
  | .nan => .nan

/-- Embedding of `np.power(·, e)` for a fixed positive non-integer exponent,
following C99 `pow` (as NumPy does): a negative finite base yields `nan`,
both infinities yield `+inf`, `nan` propagates.  The pipeline only applies
it to clipped (nonnegative or `nan`) values. -/
noncomputable def FVal.powPos (e : ℝ) : FVal → FVal
  | .fin x => if x < 0 then .nan else .fin (x ^ e)
  | .inf => .inf
  | .ninf => .inf
  | .nan => .nan

/-- IEEE multiplication: `nan` propagates and `0 * ±inf = nan`. -/
noncomputable def FVal.mul : FVal → FVal → FVal
  | .nan, _ => .nan
  | _, .nan => .nan
  | .fin a, .fin b => .fin (a * b)
  | .fin a, .inf => if 0 < a then .inf else if a < 0 then .ninf else .nan
  | .fin a, .ninf => if 0 < a then .ninf else if a < 0 then .inf else .nan
  | .inf, .fin b => if 0 < b then .inf else if b < 0 then .ninf else .nan
  | .ninf, .fin b => if 0 < b then .ninf else if b < 0 then .inf else .nan
  | .inf, .inf => .inf
  | .inf, .ninf => .ninf
  | .ninf, .inf => .ninf
  | .ninf, .ninf => .inf

/-- The IEEE comparison `v < c` against a finite threshold: false for `nan`
(every comparison with `nan` is false) and for `+inf`, true for `-inf`. -/
def FVal.lt (v : FVal) (c : ℝ) : Prop :=
  match v with
  | .fin x => x < c
  | .inf => False
  | .ninf => True
  | .nan => False

noncomputable instance (v : FVal) (c : ℝ) : Decidable (FVal.lt v c) := by
  unfold FVal.lt
  cases v <;> infer_instance

/-- Membership of an IEEE value in the unit interval: a finite value in
`[0,1]`; false for `nan` and the infinities. -/
def FVal.inUnit : FVal → Prop
  | .fin x => 0 ≤ x ∧ x ≤ 1
  | _ => False

/-- The temporal-consistency score per day:
`tc = percentile(tc, 50) - tc; tc /= np.max(tc); tc = np.clip(tc, 0, None)`,
the division under IEEE semantics (a zero maximum makes the maximal entry
`nan` and negative entries `-inf`). -/
noncomputable def temporalConsistency (d : QMat) : List FVal :=
  let t := tcRawSignal d
  let c := t.map (fun x => percentile50 t - x)
  let m := maxListQ c
  c.map (fun x => (fdiv x m).clipLow0)

/-- The energy-ratio score per day:
`de = np.clip(np.divide(de, x), 0, 1)` with `de = np.sum(D, axis=0)` and
`x` the solved envelope; a zero envelope entry yields `±inf` (clipped to the
bounds) or `nan` for a `0/0` day. -/
noncomputable def energyScore (d : QMat) (xEnv : QVec) : List FVal :=
  List.zipWith (fun de x => (fdiv de x).clip01) (colSums d) xEnv

/-- The combined weights before thresholding:
`np.multiply(np.power(tc, th), np.power(de, 1.-th))` with `th = 0.1`. -/
noncomputable def weightsRaw (d : QMat) (xEnv : QVec) : List FVal :=
  List.zipWith
    (fun tc de => FVal.mul (tc.powPos ((1 : ℝ)/10)) (de.powPos (1 - (1 : ℝ)/10)))
    (temporalConsistency d) (energyScore d xEnv)

/-- Embedding of `self.weights[self.weights < 0.6] = 0.`; the IEEE
comparison is false for `nan`, so `nan` weights are NOT zeroed. -/
noncomputable def weightsThresholded (d : QMat) (xEnv : QVec) : List FVal :=
  (weightsRaw d xEnv).map (fun w => if FVal.lt w 0.6 then FVal.fin 0 else w)

/-- Embedding of `self.weights[self.test_days] = 0` on the weight values. -/
noncomputable def zeroTestDaysF (w : List FVal) (testDays : Option (List ℕ)) : List FVal :=
  match testDays with
  | none => w
  | some days =>
    List.zipWith (fun i x => if i ∈ days then FVal.fin 0 else x) (List.range w.length) w

/-- The weight vector as used by the fit: thresholded scores with the
reserved test days zeroed. -/
noncomputable def finalWeights (d : QMat) (xEnv : QVec) (testDays : Option (List ℕ)) :
    List FVal :=
  zeroTestDaysF (weightsThresholded d xEnv) testDays

/-! ### Concrete instances used in the claim witnesses and counterexamples -/

/-- A trivially converging configuration: both minimizers return their input
unchanged.  `max_iteration = 0`. -/
def zeroCapParams : FitParams :=
  { froNorm := fun _ => 0
    powerSignalsD := [[1]]
    rankK := 1
    weights := [1]
    muL := 1
    muR := 20
    tau := 4/5
    exitCriterionEpsilon := 1/1000
    maxIteration := 0
    leftMin := Except.ok
    rightMin := Except.ok }

/-- The same configuration with `max_iteration = 2`. -/
def capTwoParams : FitParams :=
  { zeroCapParams with maxIteration := 2 }

/-- A configuration whose single right-minimization step increases the
joint objective. -/
def objIncreaseParams : FitParams :=
  { froNorm := fun _ => 0
    powerSignalsD := [[1]]
    rankK := 1
    weights := [1]
    muL := 1
    muR := 20
    tau := 1/2
    exitCriterionEpsilon := 1/1000
    maxIteration := 100
    leftMin := Except.ok
    rightMin := fun _ => Except.ok ⟨[[1]], [[3]], 0⟩ }

/-- A configuration whose left minimizer raises `cvx.SolverError`
immediately. -/
def solverFailParams : FitParams :=
  { froNorm := fun _ => 0
    powerSignalsD := [[1]]
    rankK := 1
    weights := [1]
    muL := 1
    muR := 20
    tau := 4/5
    exitCriterionEpsilon := 1/1000
    maxIteration := 100
    leftMin := fun _ => Except.error SolverExc.solverError
    rightMin := Except.ok }

/-- A configuration whose f1 sequence is 10 (initial), 5, 7, 5, ...:
the right minimizer alternates between two value sets. -/
def f1WobbleParams : FitParams :=
  { froNorm := fun _ => 0
    powerSignalsD := [[10]]
    rankK := 1
    weights := [1]
    muL := 1
    muR := 20
    tau := 1
    exitCriterionEpsilon := 1/1000
    maxIteration := 3
    leftMin := Except.ok
    rightMin := fun t =>
      Except.ok (if t.r = [[5]] then ⟨[[1]], [[3]], 0⟩ else ⟨[[1]], [[5]], 0⟩) }

/-- A configuration whose per-day weight vector is identically zero. -/
def zeroWeightsParams : FitParams :=
  { froNorm := fun _ => 0
    powerSignalsD := [[1, 1], [1, 1]]
    rankK := 2
    weights := [0, 0]
    muL := 1
    muR := 20
    tau := 4/5
    exitCriterionEpsilon := 1/1000
    maxIteration := 100
    leftMin := Except.ok
    rightMin := Except.ok }

/-- A `main.py` configuration that runs two iterations with constant
optimal solver answers. -/
def twoIterCSParams : CSParams :=
  { froNorm := fun _ => 0
    d := [[1]]
    k := 1
    muL := 1
    muR := 20
    tau := 1/2
    eps := 1/1000
    maxIter := 2
    testDays := none
    leftSolve := fun _ => ⟨"optimal", [[1]]⟩
    rightSolve := fun _ => ⟨"optimal", [[1/2]], 0⟩ }

/-- Initial `IterativeClearSky` state for the two-iteration run. -/
def twoIterCSState : CSState :=
  { lCs := [[0]]
    rCs := [[0]]
    beta := 0
    r0 := [5]
    weights := [1]
    goodFit := false }

/-- Minimum of a nonempty vector, `np.min` (junk value 0 on empty input). -/
def minListQ : QVec → ℚ
  | [] => 0
  | x :: xs => xs.foldl min x

/-- Invariant carried by the `minimize_objective` trace: each iteration's
`r0` is refreshed from row 0 of the `R` it solved, consecutive iterations
hand that refreshed `r0` to the next degradation constraint, and the loop
state's `r0` equals the last record's refreshed value. -/
def csTraceInvariant (s : CSLoopState) : Prop :=
  (∀ i, i < s.trace.length →
    (s.trace.getD i default).r0After = row0 (s.trace.getD i default).rSolved) ∧
  (∀ i, i + 1 < s.trace.length →
    (s.trace.getD (i+1) default).r0Used = (s.trace.getD i default).r0After) ∧
  (∀ rec, s.trace.getLast? = some rec → s.st.r0 = rec.r0After)

/-! ## Helper lemmas -/

theorem getD_map_of_lt (f : ℚ → ℚ) (l : List ℚ) (i : ℕ) (h : i < l.length) :
    (l.map f).getD i 0 = f (l.getD i 0) := by
  rw [List.getD_eq_getElem _ _ (by simpa using h), List.getD_eq_getElem _ _ h]
  simp

theorem getD_mem_of_lt (l : List ℚ) (i : ℕ) (h : i < l.length) : l.getD i 0 ∈ l := by
  rw [List.getD_eq_getElem l 0 h]
  exact List.getElem_mem h

theorem getD_append_left_of_lt {α : Type} [Inhabited α] (l l' : List α) (i : ℕ)
    (h : i < l.length) : (l ++ l').getD i default = l.getD i default := by
  rw [List.getD_eq_getElem _ _ (by simp; omega), List.getD_eq_getElem _ _ h]
  exact List.getElem_append_left h

theorem getD_concat_length {α : Type} [Inhabited α] (l : List α) (a : α) :
    (l ++ [a]).getD l.length default = a := by
  rw [List.getD_eq_getElem _ _ (by simp)]
  simp

theorem getD_map_general {α β : Type} (f : α → β) (l : List α) (i : ℕ)
    (h : i < l.length) (dA : α) (dB : β) : (l.map f).getD i dB = f (l.getD i dA) := by
  rw [List.getD_eq_getElem _ _ (by simpa using h), List.getD_eq_getElem _ _ h]
  simp

theorem getD_zipWith_general {α β γ : Type} (f : α → β → γ) (l1 : List α) (l2 : List β)
    (i : ℕ) (h1 : i < l1.length) (h2 : i < l2.length) (dA : α) (dB : β) (dC : γ) :
    (List.zipWith f l1 l2).getD i dC = f (l1.getD i dA) (l2.getD i dB) := by
  have hlen : i < (List.zipWith f l1 l2).length := by
    simp [List.length_zipWith]
    omega
  rw [List.getD_eq_getElem _ _ hlen, List.getD_eq_getElem _ _ h1,
    List.getD_eq_getElem _ _ h2]
  simp

theorem getD_range_of_lt (n i : ℕ) (h : i < n) (d : ℕ) : (List.range n).getD i d = i := by
  rw [List.getD_eq_getElem _ _ (by simpa using h)]
  simp

theorem le_foldl_max (xs : List ℚ) (x : ℚ) : x ≤ xs.foldl max x := by
  induction xs generalizing x with
  | nil => exact le_refl x
  | cons y ys ih => exact le_trans (le_max_left x y) (ih (max x y))

theorem mem_le_foldl_max (xs : List ℚ) (x a : ℚ) (ha : a ∈ xs) : a ≤ xs.foldl max x := by
  induction xs generalizing x with
  | nil => cases ha
  | cons y ys ih =>
    rcases List.mem_cons.mp ha with rfl | h
    · exact le_trans (le_max_right x a) (le_foldl_max ys (max x a))
    · exact ih (max x y) h

theorem mem_le_maxListQ {a : ℚ} {v : QVec} (ha : a ∈ v) : a ≤ maxListQ v := by
  cases v with
  | nil => cases ha
  | cons x xs =>
    rcases List.mem_cons.mp ha with rfl | h
    · exact le_foldl_max xs a
    · exact mem_le_foldl_max xs x a h

theorem foldl_min_le (xs : List ℚ) (x : ℚ) : xs.foldl min x ≤ x := by
  induction xs generalizing x with
  | nil => exact le_refl x
  | cons y ys ih => exact le_trans (ih (min x y)) (min_le_left x y)

theorem foldl_min_le_mem (xs : List ℚ) (x a : ℚ) (ha : a ∈ xs) : xs.foldl min x ≤ a := by
  induction xs generalizing x with
  | nil => cases ha
  | cons y ys ih =>
    rcases List.mem_cons.mp ha with rfl | h
    · exact le_trans (foldl_min_le ys (min x a)) (min_le_right x a)
    · exact ih (min x y) h

theorem minListQ_le_mem {a : ℚ} {v : QVec} (ha : a ∈ v) : minListQ v ≤ a := by
  cases v with
  | nil => cases ha
  | cons x xs =>
    rcases List.mem_cons.mp ha with rfl | h
    · exact foldl_min_le xs a
    · exact foldl_min_le_mem xs x a h

theorem foldl_min_mem (xs : List ℚ) (x : ℚ) : xs.foldl min x = x ∨ xs.foldl min x ∈ xs := by
  induction xs generalizing x with
  | nil => exact Or.inl rfl
  | cons y ys ih =>
    rcases ih (min x y) with h | h
    · rcases min_choice x y with hm | hm
      · exact Or.inl (h.trans hm)
      · exact Or.inr (List.mem_cons.mpr (Or.inl (h.trans hm)))
    · exact Or.inr (List.mem_cons.mpr (Or.inr h))

theorem minListQ_mem {v : QVec} (hv : v ≠ []) : minListQ v ∈ v := by
  cases v with
  | nil => exact absurd rfl hv
  | cons x xs =>
    rcases foldl_min_mem xs x with h | h
    · rw [minListQ, h]
      exact List.mem_cons_self x xs
    · exact List.mem_cons.mpr (Or.inr (by rw [minListQ]; exact h))

theorem minListQ_le_percentile50 (v : QVec) (hv : v ≠ []) :
    minListQ v ≤ percentile50 v := by
  have hperm := List.perm_insertionSort (fun a b : ℚ => a ≤ b) v
  have hlen : (v.insertionSort (fun a b : ℚ => a ≤ b)).length = v.length := hperm.length_eq
  have hpos : 0 < v.length := List.length_pos.mpr hv
  have hmem : ∀ i, i < v.length →
      minListQ v ≤ (v.insertionSort (fun a b : ℚ => a ≤ b)).getD i 0 := by
    intro i hi
    exact minListQ_le_mem (hperm.mem_iff.mp (getD_mem_of_lt _ i (by omega)))
  simp only [percentile50]
  split
  · exact hmem _ (by omega)
  · have h1 := hmem (v.length / 2 - 1) (by omega)
    have h2 := hmem (v.length / 2) (by omega)
    linarith

theorem centered_maxListQ_nonneg (t : QVec) (ht : t ≠ []) :
    0 ≤ maxListQ (t.map (fun x => percentile50 t - x)) := by
  have hmin : minListQ t ∈ t := minListQ_mem ht
  have hmem : percentile50 t - minListQ t ∈ t.map (fun x => percentile50 t - x) :=
    List.mem_map.mpr ⟨minListQ t, hmin, rfl⟩
  have h1 : 0 ≤ percentile50 t - minListQ t := by
    have := minListQ_le_percentile50 t ht
    linarith
  exact le_trans h1 (mem_le_maxListQ hmem)

/-! ## Loop step lemmas for `_minimize_objective` -/

theorem nextState_iteration (p : FitParams) (s : LoopState) (t2 : Triple) :
    (nextState p s t2).iteration = s.iteration + 1 := rfl

theorem nextState_triple (p : FitParams) (s : LoopState) (t2 : Triple) :
    (nextState p s t2).triple = t2 := rfl

theorem nextState_componentR0 (p : FitParams) (s : LoopState) (t2 : Triple) :
    (nextState p s t2).componentR0 = row0 t2.r := rfl

theorem nextState_f1Last (p : FitParams) (s : LoopState) (t2 : Triple) :
    (nextState p s t2).f1Last = s.f1Last := rfl

theorem nextState_trace (p : FitParams) (s : LoopState) (t2 : Triple) :
    (nextState p s t2).trace = s.trace ++ [nextRecord p s t2] := rfl

theorem nextState_improvement (p : FitParams) (s : LoopState) (t2 : Triple) :
    (nextState p s t2).improvement = some (stepImprovementUsed p s t2) := rfl

theorem nextState_isSolverError (p : FitParams) (s : LoopState) (t2 : Triple) :
    (nextState p s t2).stateData.isSolverError = s.stateData.isSolverError := by
  simp only [nextState, storeMinimizationStateData]
  split
  · split <;> rfl
  · split <;> rfl

theorem nextState_isProblemStatusError (p : FitParams) (s : LoopState) (t2 : Triple) :
    (nextState p s t2).stateData.isProblemStatusError = s.stateData.isProblemStatusError := by
  simp only [nextState, storeMinimizationStateData]
  split
  · split <;> rfl
  · split <;> rfl

theorem nextState_objIncrease_of_neg (p : FitParams) (s : LoopState) (t2 : Triple)
    (h : stepImprovementRaw p s t2 < 0) :
    (nextState p s t2).stateData.objIncrease = true := by
  simp only [nextState, storeMinimizationStateData, if_pos h]

theorem iterStep_ok (p : FitParams) (s : LoopState) (t1 t2 : Triple)
    (hl : p.leftMin s.triple = Except.ok t1) (hr : p.rightMin t1 = Except.ok t2) :
    iterStep p s = Except.ok (nextState p s t2) := by
  unfold iterStep
  simp only [hl, hr]

theorem iterStep_ok_inv (p : FitParams) (s s' : LoopState)
    (h : iterStep p s = Except.ok s') :
    ∃ t1 t2, p.leftMin s.triple = Except.ok t1 ∧ p.rightMin t1 = Except.ok t2 ∧
      s' = nextState p s t2 := by
  unfold iterStep at h
  cases hl : p.leftMin s.triple with
  | error e =>
    simp only [hl] at h
    exact absurd h (by simp)
  | ok t1 =>
    simp only [hl] at h
    cases hr : p.rightMin t1 with
    | error e =>
      simp only [hr] at h
      exact absurd h (by simp)
    | ok t2 =>
      simp only [hr, Except.ok.injEq] at h
      exact ⟨t1, t2, rfl, hr, h.symm⟩

theorem iterStep_error_inv (p : FitParams) (s : LoopState) (e : SolverExc)
    (sd : StateData) (tr : List IterRecord)
    (h : iterStep p s = Except.error (e, sd, tr)) :
    tr = s.trace ∧
    sd = storeMinimizationStateData p.muL p.muR p.tau s.triple s.componentR0 s.stateData := by
  unfold iterStep at h
  cases hl : p.leftMin s.triple with
  | error e' =>
    simp only [hl, Except.error.injEq, Prod.mk.injEq] at h
    exact ⟨h.2.2.symm, h.2.1.symm⟩
  | ok t1 =>
    simp only [hl] at h
    cases hr : p.rightMin t1 with
    | error e' =>
      simp only [hr, Except.error.injEq, Prod.mk.injEq] at h
      exact ⟨h.2.2.symm, h.2.1.symm⟩
    | ok t2 =>
      simp only [hr] at h
      exact absurd h (by simp)

theorem loopGo_guard_false (p : FitParams) (t0 : Triple) (fuel : ℕ) (s : LoopState)
    (h : loopGuard p.exitCriterionEpsilon s.improvement = false) :
    loopGo p t0 (fuel + 1) s =
      { stateData := s.stateData
        trace := s.trace
        lCsValue := s.triple.l
        rCsValue := s.triple.r
        betaValue := s.triple.beta
        residualsAnalyzed := true
        failure := none
        completed := true } := by
  conv_lhs => rw [loopGo]
  rw [h]
  simp

theorem loopGo_step (p : FitParams) (t0 : Triple) (fuel : ℕ) (s s' : LoopState)
    (h : loopGuard p.exitCriterionEpsilon s.improvement = true)
    (hstep : iterStep p s = Except.ok s') :
    loopGo p t0 (fuel + 1) s = loopGo p t0 fuel s' := by
  conv_lhs => rw [loopGo]
  rw [h, hstep]
  simp

theorem loopGo_error (p : FitParams) (t0 : Triple) (fuel : ℕ) (s : LoopState)
    (e : SolverExc) (sd : StateData) (tr : List IterRecord)
    (h : loopGuard p.exitCriterionEpsilon s.improvement = true)
    (hstep : iterStep p s = Except.error (e, sd, tr)) :
    loopGo p t0 (fuel + 1) s =
      { stateData := setFailureFlag e sd
        trace := tr
        lCsValue := t0.l
        rCsValue := t0.r
        betaValue := t0.beta
        residualsAnalyzed := false
        failure := some e
        completed := true } := by
  conv_lhs => rw [loopGo]
  rw [h, hstep]
  simp

/-! ## C1: the iteration cap -/

theorem loopGo_iteration_cap (p : FitParams) (t0 : Triple)
    (heps : 0 < p.exitCriterionEpsilon) :
    ∀ fuel (s : LoopState), s.trace.length = s.iteration →
      s.iteration < p.maxIteration →
      p.maxIteration + 1 ≤ fuel + s.iteration →
      (loopGo p t0 fuel s).completed = true ∧
      (loopGo p t0 fuel s).trace.length ≤ p.maxIteration := by
  intro fuel
  induction fuel with
  | zero =>
    intro s h1 h2 h3
    omega
  | succ n ih =>
    intro s h1 h2 h3
    by_cases hg : loopGuard p.exitCriterionEpsilon s.improvement = true
    · cases hstep : iterStep p s with
      | error epr =>
        obtain ⟨e, sd, tr⟩ := epr
        obtain ⟨htr, _⟩ := iterStep_error_inv p s e sd tr hstep
        rw [loopGo_error p t0 n s e sd tr hg hstep]
        subst htr
        refine ⟨rfl, ?_⟩
        show s.trace.length ≤ p.maxIteration
        omega
      | ok s' =>
        obtain ⟨t1, t2, _, _, rfl⟩ := iterStep_ok_inv p s s' hstep
        rw [loopGo_step p t0 n s _ hg hstep]
        have hlen' : (nextState p s t2).trace.length = (nextState p s t2).iteration := by
          rw [nextState_trace, nextState_iteration]
          simp [h1]
        by_cases hcap : s.iteration + 1 < p.maxIteration
        · exact ih (nextState p s t2) hlen' (by rw [nextState_iteration]; exact hcap)
            (by rw [nextState_iteration]; omega)
        · have heq : s.iteration + 1 = p.maxIteration := by omega
          have himp : (nextState p s t2).improvement = some 0 := by
            rw [nextState_improvement, stepImprovementUsed]
            simp only [if_pos (by omega : p.maxIteration ≤ s.iteration + 1)]
          have hguard : loopGuard p.exitCriterionEpsilon (nextState p s t2).improvement
              = false := by
            rw [himp, loopGuard, decide_eq_false_iff_not]
            exact not_le.mpr heps
          obtain ⟨m, rfl⟩ : ∃ m, n = m + 1 := ⟨n - 1, by omega⟩
          rw [loopGo_guard_false p t0 m _ hguard]
          refine ⟨rfl, ?_⟩
          rw [nextState_trace]
          simp
          omega
    · rw [loopGo_guard_false p t0 n s (by simpa using hg)]
      refine ⟨rfl, ?_⟩
      show s.trace.length ≤ p.maxIteration
      omega

/-- C1 (amended): for every positive `exit_criterion_epsilon` and every
`max_iteration ≥ 1`, the loop performs at most `max_iteration` iterations
and exits within `max_iteration + 1` guard evaluations: when the iteration
count reaches `max_iteration`, `improvement` is forced to `0` so the loop
exits on that iteration regardless of the computed improvement. -/
theorem minimizeObjective_iteration_cap (p : FitParams) (t0 : Triple) (c0 : QVec)
    (sd0 : StateData) (fuel : ℕ) (heps : 0 < p.exitCriterionEpsilon)
    (hmax : 1 ≤ p.maxIteration) (hfuel : p.maxIteration + 1 ≤ fuel) :
    (minimizeObjective p t0 c0 sd0 fuel).completed = true ∧
    (minimizeObjective p t0 c0 sd0 fuel).trace.length ≤ p.maxIteration := by
  unfold minimizeObjective
  exact loopGo_iteration_cap p t0 heps fuel (initialLoopState p t0 c0 sd0) rfl
    (by simpa [initialLoopState] using hmax) (by simpa [initialLoopState] using hfuel)

unseal Rat.add Rat.mul Rat.sub Rat.inv in
/-- C1 witness: a concrete run with `max_iteration = 2` and fuel `3`. -/
theorem minimizeObjective_iteration_cap_witness :
    0 < capTwoParams.exitCriterionEpsilon ∧ 1 ≤ capTwoParams.maxIteration ∧
    capTwoParams.maxIteration + 1 ≤ 3 ∧
    ((minimizeObjective capTwoParams ⟨[[0]], [[0]], 0⟩ [] {} 3).completed = true ∧
     (minimizeObjective capTwoParams ⟨[[0]], [[0]], 0⟩ [] {} 3).trace.length
        ≤ capTwoParams.maxIteration) :=
  ⟨by decide, by decide, by decide,
    minimizeObjective_iteration_cap capTwoParams ⟨[[0]], [[0]], 0⟩ [] {} 3
      (by decide) (by decide) (by decide)⟩

unseal Rat.add Rat.mul Rat.sub Rat.inv in
/-- C1 counterexample: with `max_iteration = 0` (a legal configuration) the
loop still performs one iteration, so "at most `max_iteration` iterations
for every configuration" fails. -/
theorem minimizeObjective_zero_cap_cex :
    (minimizeObjective zeroCapParams ⟨[[0]], [[0]], 0⟩ [] {} 2).completed = true ∧
    ¬ ((minimizeObjective zeroCapParams ⟨[[0]], [[0]], 0⟩ [] {} 2).trace.length
        ≤ zeroCapParams.maxIteration) := by
  decide

/-! ## C2: objective increase is non-fatal -/

/-- C2: when an iteration's minimizations succeed and the fractional
improvement is negative (the joint objective increased), the iteration does
not abort: `obj_increase` is recorded, no failure flag changes, and — when
the iteration cap is not hit — the absolute value of the improvement is the
value tested against `exit_criterion_epsilon`. -/
theorem objectiveIncrease_nonfatal (p : FitParams) (s : LoopState) (t1 t2 : Triple)
    (hl : p.leftMin s.triple = Except.ok t1) (hr : p.rightMin t1 = Except.ok t2)
    (hneg : stepImprovementRaw p s t2 < 0) :
    iterStep p s = Except.ok (nextState p s t2) ∧
    (nextState p s t2).stateData.objIncrease = true ∧
    (nextState p s t2).stateData.isSolverError = s.stateData.isSolverError ∧
    (nextState p s t2).stateData.isProblemStatusError = s.stateData.isProblemStatusError ∧
    (¬ p.maxIteration ≤ s.iteration + 1 →
      (nextState p s t2).improvement = some |stepImprovementRaw p s t2|) := by
  refine ⟨iterStep_ok p s t1 t2 hl hr, nextState_objIncrease_of_neg p s t2 hneg,
    nextState_isSolverError p s t2, nextState_isProblemStatusError p s t2, ?_⟩
  intro hcap
  rw [nextState_improvement, stepImprovementUsed]
  simp only [if_neg hcap, if_pos hneg, abs_of_neg hneg]

unseal Rat.add Rat.mul Rat.sub Rat.inv in
/-- C2 witness: a concrete iteration in which the objective rises from
`1/2` to `1`. -/
theorem objectiveIncrease_nonfatal_witness :
    objIncreaseParams.leftMin
        (initialLoopState objIncreaseParams ⟨[[0]], [[0]], 0⟩ [] {}).triple
      = Except.ok ⟨[[0]], [[0]], 0⟩ ∧
    objIncreaseParams.rightMin ⟨[[0]], [[0]], 0⟩ = Except.ok ⟨[[1]], [[3]], 0⟩ ∧
    stepImprovementRaw objIncreaseParams
        (initialLoopState objIncreaseParams ⟨[[0]], [[0]], 0⟩ [] {}) ⟨[[1]], [[3]], 0⟩ < 0 ∧
    (iterStep objIncreaseParams (initialLoopState objIncreaseParams ⟨[[0]], [[0]], 0⟩ [] {})
        = Except.ok (nextState objIncreaseParams
            (initialLoopState objIncreaseParams ⟨[[0]], [[0]], 0⟩ [] {}) ⟨[[1]], [[3]], 0⟩) ∧
     (nextState objIncreaseParams (initialLoopState objIncreaseParams ⟨[[0]], [[0]], 0⟩ [] {})
        ⟨[[1]], [[3]], 0⟩).stateData.objIncrease = true ∧
     (nextState objIncreaseParams (initialLoopState objIncreaseParams ⟨[[0]], [[0]], 0⟩ [] {})
        ⟨[[1]], [[3]], 0⟩).stateData.isSolverError
        = (initialLoopState objIncreaseParams ⟨[[0]], [[0]], 0⟩ [] {}).stateData.isSolverError ∧
     (nextState objIncreaseParams (initialLoopState objIncreaseParams ⟨[[0]], [[0]], 0⟩ [] {})
        ⟨[[1]], [[3]], 0⟩).stateData.isProblemStatusError
        = (initialLoopState objIncreaseParams
            ⟨[[0]], [[0]], 0⟩ [] {}).stateData.isProblemStatusError ∧
     (¬ objIncreaseParams.maxIteration
          ≤ (initialLoopState objIncreaseParams ⟨[[0]], [[0]], 0⟩ [] {}).iteration + 1 →
       (nextState objIncreaseParams (initialLoopState objIncreaseParams ⟨[[0]], [[0]], 0⟩ [] {})
          ⟨[[1]], [[3]], 0⟩).improvement
        = some |stepImprovementRaw objIncreaseParams
            (initialLoopState objIncreaseParams ⟨[[0]], [[0]], 0⟩ [] {}) ⟨[[1]], [[3]], 0⟩|)) :=
  ⟨rfl, rfl, by decide,
    objectiveIncrease_nonfatal objIncreaseParams
      (initialLoopState objIncreaseParams ⟨[[0]], [[0]], 0⟩ [] {})
      ⟨[[0]], [[0]], 0⟩ ⟨[[1]], [[3]], 0⟩ rfl rfl (by decide)⟩

/-! ## C4: solver failure aborts the loop and preserves state -/

theorem setFailureFlag_fields (e : SolverExc) (sd : StateData) :
    (setFailureFlag e sd).lValue = sd.lValue ∧
    (setFailureFlag e sd).rValue = sd.rValue ∧
    (setFailureFlag e sd).betaValue = sd.betaValue ∧
    (setFailureFlag e sd).componentR0 = sd.componentR0 ∧
    (setFailureFlag e sd).isSolverError = (sd.isSolverError || e.isSolver) ∧
    (setFailureFlag e sd).isProblemStatusError
      = (sd.isProblemStatusError || !e.isSolver) := by
  cases e with
  | solverError => simp [setFailureFlag, SolverExc.isSolver]
  | problemStatusError msg => simp [setFailureFlag, SolverExc.isSolver]

theorem loopGo_failure_spec (p : FitParams) (t0 : Triple) (c0 : QVec) :
    ∀ fuel (s : LoopState) (e : SolverExc),
      s.stateData.isSolverError = false →
      s.stateData.isProblemStatusError = false →
      s.triple = lastTriple s.trace t0 →
      s.componentR0 = lastComponentR0 s.trace c0 →
      (loopGo p t0 fuel s).failure = some e →
      (loopGo p t0 fuel s).completed = true ∧
      (loopGo p t0 fuel s).stateData.isSolverError = e.isSolver ∧
      (loopGo p t0 fuel s).stateData.isProblemStatusError = !e.isSolver ∧
      (loopGo p t0 fuel s).lCsValue = t0.l ∧
      (loopGo p t0 fuel s).rCsValue = t0.r ∧
      (loopGo p t0 fuel s).betaValue = t0.beta ∧
      (loopGo p t0 fuel s).residualsAnalyzed = false ∧
      (loopGo p t0 fuel s).stateData.lValue = (lastTriple (loopGo p t0 fuel s).trace t0).l ∧
      (loopGo p t0 fuel s).stateData.rValue = (lastTriple (loopGo p t0 fuel s).trace t0).r ∧
      (loopGo p t0 fuel s).stateData.betaValue
        = (lastTriple (loopGo p t0 fuel s).trace t0).beta ∧
      (loopGo p t0 fuel s).stateData.componentR0
        = lastComponentR0 (loopGo p t0 fuel s).trace c0 := by
  intro fuel
  induction fuel with
  | zero =>
    intro s e _ _ _ _ hfail
    exact absurd hfail (by rw [loopGo]; simp)
  | succ n ih =>
    intro s e hs hp htrip hc0 hfail
    by_cases hg : loopGuard p.exitCriterionEpsilon s.improvement = true
    · cases hstep : iterStep p s with
      | error epr =>
        obtain ⟨e', sd, tr⟩ := epr
        obtain ⟨htr, hsd⟩ := iterStep_error_inv p s e' sd tr hstep
        rw [loopGo_error p t0 n s e' sd tr hg hstep] at hfail ⊢
        have he : e' = e := by simpa using hfail
        subst he
        subst htr
        subst hsd
        obtain ⟨f1, f2, f3, f4, f5, f6⟩ :=
          setFailureFlag_fields e'
            (storeMinimizationStateData p.muL p.muR p.tau s.triple s.componentR0 s.stateData)
        refine ⟨rfl, ?_, ?_, rfl, rfl, rfl, rfl, ?_, ?_, ?_, ?_⟩
        · show (setFailureFlag e' _).isSolverError = e'.isSolver
          rw [f5]
          show (s.stateData.isSolverError || e'.isSolver) = e'.isSolver
          rw [hs]
          simp
        · show (setFailureFlag e' _).isProblemStatusError = !e'.isSolver
          rw [f6]
          show (s.stateData.isProblemStatusError || !e'.isSolver) = !e'.isSolver
          rw [hp]
          simp
        · show (setFailureFlag e' _).lValue = (lastTriple s.trace t0).l
          rw [f1]
          show s.triple.l = (lastTriple s.trace t0).l
          rw [htrip]
        · show (setFailureFlag e' _).rValue = (lastTriple s.trace t0).r
          rw [f2]
          show s.triple.r = (lastTriple s.trace t0).r
          rw [htrip]
        · show (setFailureFlag e' _).betaValue = (lastTriple s.trace t0).beta
          rw [f3]
          show s.triple.beta = (lastTriple s.trace t0).beta
          rw [htrip]
        · show (setFailureFlag e' _).componentR0 = lastComponentR0 s.trace c0
          rw [f4]
          show s.componentR0 = lastComponentR0 s.trace c0
          exact hc0
      | ok s' =>
        obtain ⟨t1, t2, _, _, rfl⟩ := iterStep_ok_inv p s s' hstep
        rw [loopGo_step p t0 n s _ hg hstep] at hfail ⊢
        refine ih (nextState p s t2) e ?_ ?_ ?_ ?_ hfail
        · rw [nextState_isSolverError]
          exact hs
        · rw [nextState_isProblemStatusError]
          exact hp
        · rw [nextState_triple, nextState_trace, lastTriple, List.getLast?_concat]
          simp [nextRecord]
        · rw [nextState_componentR0, nextState_trace, lastComponentR0, List.getLast?_concat]
          simp [nextRecord]
    · rw [loopGo_guard_false p t0 n s (by simpa using hg)] at hfail
      exact absurd hfail (by simp)

/-- C4: if a minimizer raises `cvx.SolverError` or `ProblemStatusError`
during an iteration, the loop aborts with the corresponding failure flag
set on the state data, the snapshot taken at the start of the in-flight
iteration (the values entering it) is preserved in the state data, the
published result accessors keep the initial values rather than in-flight
ones, and residual analysis is skipped — the fit ends in a definite
failure outcome. -/
theorem solverFailure_preserves_state (p : FitParams) (t0 : Triple) (c0 : QVec)
    (sd0 : StateData) (fuel : ℕ) (e : SolverExc)
    (hs : sd0.isSolverError = false) (hp : sd0.isProblemStatusError = false)
    (hfail : (minimizeObjective p t0 c0 sd0 fuel).failure = some e) :
    (minimizeObjective p t0 c0 sd0 fuel).completed = true ∧
    (minimizeObjective p t0 c0 sd0 fuel).stateData.isSolverError = e.isSolver ∧
    (minimizeObjective p t0 c0 sd0 fuel).stateData.isProblemStatusError = !e.isSolver ∧
    (minimizeObjective p t0 c0 sd0 fuel).lCsValue = t0.l ∧
    (minimizeObjective p t0 c0 sd0 fuel).rCsValue = t0.r ∧
    (minimizeObjective p t0 c0 sd0 fuel).betaValue = t0.beta ∧
    (minimizeObjective p t0 c0 sd0 fuel).residualsAnalyzed = false ∧
    (minimizeObjective p t0 c0 sd0 fuel).stateData.lValue
      = (lastTriple (minimizeObjective p t0 c0 sd0 fuel).trace t0).l ∧
    (minimizeObjective p t0 c0 sd0 fuel).stateData.rValue
      = (lastTriple (minimizeObjective p t0 c0 sd0 fuel).trace t0).r ∧
    (minimizeObjective p t0 c0 sd0 fuel).stateData.betaValue
      = (lastTriple (minimizeObjective p t0 c0 sd0 fuel).trace t0).beta ∧
    (minimizeObjective p t0 c0 sd0 fuel).stateData.componentR0
      = lastComponentR0 (minimizeObjective p t0 c0 sd0 fuel).trace c0 :=
  loopGo_failure_spec p t0 c0 fuel (initialLoopState p t0 c0 sd0) e hs hp rfl rfl hfail

unseal Rat.add Rat.mul Rat.sub Rat.inv in
/-- C4 witness: a run whose left minimizer raises `cvx.SolverError` in the
first iteration. -/
theorem solverFailure_preserves_state_witness :
    (({} : StateData).isSolverError = false ∧ ({} : StateData).isProblemStatusError = false ∧
     (minimizeObjective solverFailParams ⟨[[0]], [[0]], 0⟩ [] {} 3).failure
        = some SolverExc.solverError) ∧
    ((minimizeObjective solverFailParams ⟨[[0]], [[0]], 0⟩ [] {} 3).completed = true ∧
     (minimizeObjective solverFailParams ⟨[[0]], [[0]], 0⟩ [] {} 3).stateData.isSolverError
        = SolverExc.solverError.isSolver ∧
     (minimizeObjective solverFailParams ⟨[[0]], [[0]], 0⟩ [] {} 3).stateData.isProblemStatusError
        = !SolverExc.solverError.isSolver ∧
     (minimizeObjective solverFailParams ⟨[[0]], [[0]], 0⟩ [] {} 3).lCsValue = [[0]] ∧
     (minimizeObjective solverFailParams ⟨[[0]], [[0]], 0⟩ [] {} 3).rCsValue = [[0]] ∧
     (minimizeObjective solverFailParams ⟨[[0]], [[0]], 0⟩ [] {} 3).betaValue = 0 ∧
     (minimizeObjective solverFailParams ⟨[[0]], [[0]], 0⟩ [] {} 3).residualsAnalyzed = false ∧
     (minimizeObjective solverFailParams ⟨[[0]], [[0]], 0⟩ [] {} 3).stateData.lValue
        = (lastTriple (minimizeObjective solverFailParams ⟨[[0]], [[0]], 0⟩ [] {} 3).trace
            ⟨[[0]], [[0]], 0⟩).l ∧
     (minimizeObjective solverFailParams ⟨[[0]], [[0]], 0⟩ [] {} 3).stateData.rValue
        = (lastTriple (minimizeObjective solverFailParams ⟨[[0]], [[0]], 0⟩ [] {} 3).trace
            ⟨[[0]], [[0]], 0⟩).r ∧
     (minimizeObjective solverFailParams ⟨[[0]], [[0]], 0⟩ [] {} 3).stateData.betaValue
        = (lastTriple (minimizeObjective solverFailParams ⟨[[0]], [[0]], 0⟩ [] {} 3).trace
            ⟨[[0]], [[0]], 0⟩).beta ∧
     (minimizeObjective solverFailParams ⟨[[0]], [[0]], 0⟩ [] {} 3).stateData.componentR0
        = lastComponentR0 (minimizeObjective solverFailParams ⟨[[0]], [[0]], 0⟩ [] {} 3).trace
            []) :=
  ⟨⟨rfl, rfl, by decide⟩,
    solverFailure_preserves_state solverFailParams ⟨[[0]], [[0]], 0⟩ [] {} 3
      SolverExc.solverError rfl rfl (by decide)⟩

/-! ## C8: the `f1_increase` flag -/

theorem loopGo_zero (p : FitParams) (t0 : Triple) (s : LoopState) :
    (loopGo p t0 0 s).trace = s.trace := by
  rw [loopGo]

theorem loopGo_f1Increase_spec (p : FitParams) (t0 : Triple) (f10 : ℚ) :
    ∀ fuel (s : LoopState), s.f1Last = f10 →
      (∀ i, i < s.trace.length →
        (s.trace.getD i default).f1IncreaseSet
          = decide (f10 < (s.trace.getD i default).objComponents.headD 0)) →
      ∀ i, i < (loopGo p t0 fuel s).trace.length →
        ((loopGo p t0 fuel s).trace.getD i default).f1IncreaseSet
          = decide (f10 < ((loopGo p t0 fuel s).trace.getD i default).objComponents.headD 0) := by
  intro fuel
  induction fuel with
  | zero =>
    intro s _ hinv i hi
    rw [loopGo_zero] at hi ⊢
    exact hinv i hi
  | succ n ih =>
    intro s hf1 hinv i hi
    by_cases hg : loopGuard p.exitCriterionEpsilon s.improvement = true
    · cases hstep : iterStep p s with
      | error epr =>
        obtain ⟨e', sd, tr⟩ := epr
        obtain ⟨htr, _⟩ := iterStep_error_inv p s e' sd tr hstep
        rw [loopGo_error p t0 n s e' sd tr hg hstep] at hi ⊢
        subst htr
        exact hinv i hi
      | ok s' =>
        obtain ⟨t1, t2, _, _, rfl⟩ := iterStep_ok_inv p s s' hstep
        rw [loopGo_step p t0 n s _ hg hstep] at hi ⊢
        refine ih (nextState p s t2) (by rw [nextState_f1Last]; exact hf1) ?_ i hi
        intro j hj
        rw [nextState_trace] at hj ⊢
        simp only [List.length_append, List.length_cons, List.length_nil] at hj
        by_cases hjlt : j < s.trace.length
        · rw [getD_append_left_of_lt _ _ _ hjlt]
          exact hinv j hjlt
        · have hj' : j = s.trace.length := by omega
          subst hj'
          rw [getD_concat_length]
          rw [nextRecord]
          simp only
          rw [hf1]
    · rw [loopGo_guard_false p t0 n s (by simpa using hg)] at hi ⊢
      exact hinv i hi

/-- C8 (amended): the `f1_increase` flag is recorded in an iteration if and
only if that iteration's `f1` exceeds the INITIAL `f1` value computed
before the loop — `f1_last` is assigned once at line 133 of
`iterative_fitting.py` and never updated, so the comparison is not against
the previous iteration. -/
theorem f1Increase_vs_initial (p : FitParams) (t0 : Triple) (c0 : QVec)
    (sd0 : StateData) (fuel i : ℕ)
    (hi : i < (minimizeObjective p t0 c0 sd0 fuel).trace.length) :
    ((minimizeObjective p t0 c0 sd0 fuel).trace.getD i default).f1IncreaseSet
      = decide ((calcObj p t0).headD 0
          < ((minimizeObjective p t0 c0 sd0 fuel).trace.getD i default).objComponents.headD 0) :=
  loopGo_f1Increase_spec p t0 ((calcObj p t0).headD 0) fuel
    (initialLoopState p t0 c0 sd0) rfl
    (by
      intro j hj
      simp [initialLoopState] at hj)
    i hi

unseal Rat.add Rat.mul Rat.sub Rat.inv in
/-- C8 witness: on the wobbling run the flag of iteration 1 agrees with the
comparison against the initial `f1 = 10`. -/
theorem f1Increase_vs_initial_witness :
    0 < (minimizeObjective f1WobbleParams ⟨[[0]], [[0]], 0⟩ [] {} 4).trace.length ∧
    ((minimizeObjective f1WobbleParams ⟨[[0]], [[0]], 0⟩ [] {} 4).trace.getD 0
        default).f1IncreaseSet
      = decide ((calcObj f1WobbleParams ⟨[[0]], [[0]], 0⟩).headD 0
          < ((minimizeObjective f1WobbleParams ⟨[[0]], [[0]], 0⟩ [] {} 4).trace.getD 0
              default).objComponents.headD 0) :=
  ⟨by decide,
    f1Increase_vs_initial f1WobbleParams ⟨[[0]], [[0]], 0⟩ [] {} 4 0 (by decide)⟩

unseal Rat.add Rat.mul Rat.sub Rat.inv in
/-- C8 counterexample: in iteration 2 of the wobbling run, `f1` rises from
`5` to `7` relative to the previous iteration, yet the flag is NOT
recorded (because `7 > 10` is false): the claimed "if and only if versus
the previous iteration's f1" fails. -/
theorem f1Increase_prev_iteration_cex :
    ((minimizeObjective f1WobbleParams ⟨[[0]], [[0]], 0⟩ [] {} 4).trace.getD 0
        default).objComponents.headD 0
      < ((minimizeObjective f1WobbleParams ⟨[[0]], [[0]], 0⟩ [] {} 4).trace.getD 1
          default).objComponents.headD 0 ∧
    ((minimizeObjective f1WobbleParams ⟨[[0]], [[0]], 0⟩ [] {} 4).trace.getD 1
        default).f1IncreaseSet = false := by
  decide

/-! ## C10: no all-zero-weights check -/

unseal Rat.add Rat.mul Rat.sub Rat.inv in
/-- C10: the code performs no degeneracy check on the weight vector:
with the all-zero weight vector `[0, 0]` the alternating-minimization loop
runs and completes normally (converged after one iteration, residual
analysis performed, no error or degeneracy flag), instead of refusing to
proceed. -/
theorem allZeroWeights_fit_proceeds :
    zeroWeightsParams.weights = [0, 0] ∧
    (minimizeObjective zeroWeightsParams ⟨[[1, 0], [0, 1]], [[1, 1], [1, 1]], 0⟩
        [] {} 5).completed = true ∧
    (minimizeObjective zeroWeightsParams ⟨[[1, 0], [0, 1]], [[1, 1], [1, 1]], 0⟩
        [] {} 5).failure = none ∧
    (minimizeObjective zeroWeightsParams ⟨[[1, 0], [0, 1]], [[1, 1], [1, 1]], 0⟩
        [] {} 5).residualsAnalyzed = true ∧
    (minimizeObjective zeroWeightsParams ⟨[[1, 0], [0, 1]], [[1, 1], [1, 1]], 0⟩
        [] {} 5).trace.length = 1 ∧
    (minimizeObjective zeroWeightsParams ⟨[[1, 0], [0, 1]], [[1, 1], [1, 1]], 0⟩
        [] {} 5).stateData.isSolverError = false ∧
    (minimizeObjective zeroWeightsParams ⟨[[1, 0], [0, 1]], [[1, 1], [1, 1]], 0⟩
        [] {} 5).stateData.isProblemStatusError = false := by
  decide

/-! ## C6: the annual-periodicity component f4 -/

/-- C6: the objective evaluator's fourth component is exactly `0` (and no
error is raised — the evaluator is total) whenever the day count
`R.shape[1]` is below `367`; for at least `367` days it is `mu_R` times the
Frobenius norm of `R[1:, :-365] - R[1:, 365:]`. -/
theorem objective_f4_annual (froNorm : QMat → ℚ) (d : QMat) (k : ℕ)
    (muL muR tau b : ℚ) (lV rV : QMat) (w : QVec) :
    (numCols rV < 367 →
      (calculateObjective froNorm d k muL muR tau lV rV b w).getD 3 0 = 0) ∧
    (367 ≤ numCols rV →
      (calculateObjective froNorm d k muL muR tau lV rV b w).getD 3 0
        = muR * froNorm (matSub (annualSliceEarly rV) (annualSliceLate rV))) := by
  constructor
  · intro h
    simp only [calculateObjective]
    rw [if_pos (by omega)]
    rfl
  · intro h
    simp only [calculateObjective]
    rw [if_neg (by omega)]
    rfl

/-- C6 witness: a single-day `R` falls in the short-series branch. -/
theorem objective_f4_annual_witness :
    numCols [[(0:ℚ)]] < 367 ∧
    (calculateObjective (fun _ => 0) [[1]] 1 1 20 (4/5) [[1]] [[0]] 0 [1]).getD 3 0 = 0 :=
  ⟨by decide,
    (objective_f4_annual (fun _ => 0) [[1]] 1 1 20 (4/5) 0 [[1]] [[0]] [1]).1 (by decide)⟩

/-! ## C3: non-optimal solver status raises `ProblemStatusError` -/

/-- C3: in both `min_L` and `min_R`, a `ProblemStatusError` is raised if
and only if the backend's reported status differs from `'optimal'`; a
non-optimal status therefore never yields an ordinary result. -/
theorem problemStatusError_iff_nonoptimal (st : CSState) (lResp : LSolverResponse)
    (rResp : RSolverResponse) :
    ((∃ msg, min_L st lResp = Except.error msg) ↔ lResp.status ≠ "optimal") ∧
    ((∃ msg, min_R st rResp = Except.error msg) ↔ rResp.status ≠ "optimal") := by
  constructor
  · unfold min_L
    by_cases h : lResp.status = "optimal" <;> simp [h]
  · unfold min_R
    by_cases h : rResp.status = "optimal" <;> simp [h]

/-! ## C9: the dropout constraint masks rows of `D`, not columns -/

unseal Rat.add Rat.mul Rat.sub Rat.inv in
/-- C9 counterexample: `D = [[1,0],[1,0]]` has an all-zero column 1
(a dropout day), yet `L = [[1,1],[1,-1]]` satisfies every constraint the
`min_L` program imposes (with `R = [[1,0],[0,0]]`) while row 1 of `L` is
nonzero: the constraint set does not force rows of `L` indexed by
near-zero-average *columns* of `D` to zero. -/
theorem minL_dropout_column_cex :
    minLConstraintsHold [[1, 0], [1, 0]] [[1, 0], [0, 0]] [[1, 1], [1, -1]] ∧
    ¬ specDropoutColumnsZeroRows [[1, 0], [1, 0]] [[1, 1], [1, -1]] := by
  unfold minLConstraintsHold specDropoutColumnsZeroRows
  exact ⟨⟨by decide, by decide, by decide⟩, by decide⟩

/-- C9 (amended): the `min_L` constraint `L_cs[np.average(D, axis=1) <=
1e-5, :] == 0` zeroes the rows of `L` indexed by near-zero-average ROWS of
`D` (times of day that are dark in every sample), and any `L` satisfying
the program's constraints has those rows identically zero. -/
theorem minL_zero_average_rows (d rFixed lVar : QMat)
    (h : minLConstraintsHold d rFixed lVar) :
    ∀ i, i < d.length → rowAverage (d.getD i []) ≤ 1/100000 →
      ∀ x ∈ lVar.getD i [], x = 0 :=
  h.2.1

unseal Rat.add Rat.mul Rat.sub Rat.inv in
/-- C9 witness: a `D` whose row 0 is identically zero forces row 0 of a
feasible `L` to zero. -/
theorem minL_zero_average_rows_witness :
    minLConstraintsHold [[0, 0], [1, 1]] [[1, 1], [0, 0]] [[0, 0], [5, 0]] ∧
    (∀ i, i < ([[0, 0], [1, 1]] : QMat).length →
      rowAverage (([[0, 0], [1, 1]] : QMat).getD i []) ≤ 1/100000 →
      ∀ x ∈ ([[0, 0], [5, 0]] : QMat).getD i [], x = 0) :=
  ⟨⟨by decide, by decide, by decide⟩,
    minL_zero_average_rows [[0, 0], [1, 1]] [[1, 1], [0, 0]] [[0, 0], [5, 0]]
      ⟨by decide, by decide, by decide⟩⟩

/-! ## C7: r0 is refreshed from row 0 of the solved R and feeds the next
degradation constraint -/

theorem min_L_ok_inv (st : CSState) (resp : LSolverResponse) (st' : CSState)
    (h : min_L st resp = Except.ok st') : st' = { st with lCs := resp.lValue } := by
  unfold min_L at h
  split at h
  · exact absurd h (by simp)
  · exact ((Except.ok.injEq _ _).mp h).symm

theorem min_R_ok_inv (st : CSState) (resp : RSolverResponse) (st' : CSState)
    (h : min_R st resp = Except.ok st') :
    st' = { st with rCs := resp.rValue, beta := resp.betaValue, r0 := row0 resp.rValue } := by
  unfold min_R at h
  split at h
  · exact absurd h (by simp)
  · exact ((Except.ok.injEq _ _).mp h).symm

theorem csIterStep_ok_inv (p : CSParams) (s s' : CSLoopState)
    (h : csIterStep p s = Except.ok s') :
    s'.st.r0 = row0 s'.st.rCs ∧
    ∃ o imp, s'.trace = s.trace ++ [⟨s.st.r0, s'.st.rCs, s'.st.r0, o, imp⟩] := by
  unfold csIterStep at h
  cases hL : min_L { s.st with weights := zeroTestDays s.st.weights p.testDays }
      (p.leftSolve { s.st with weights := zeroTestDays s.st.weights p.testDays }) with
  | error msg =>
    simp only [hL] at h
    exact absurd h (by simp)
  | ok st1 =>
    simp only [hL] at h
    cases hR : min_R st1 (p.rightSolve st1) with
    | error msg =>
      simp only [hR] at h
      exact absurd h (by simp)
    | ok st2 =>
      simp only [hR] at h
      have hst1 := min_L_ok_inv _ _ _ hL
      have hst2 := min_R_ok_inv _ _ _ hR
      have hs' := ((Except.ok.injEq _ _).mp h)
      subst hs'
      subst hst2
      subst hst1
      split <;> exact ⟨rfl, _, _, rfl⟩

theorem getD_last_of_getLast {α : Type} [Inhabited α] (l : List α) (rec : α)
    (h : l.getLast? = some rec) : l.getD (l.length - 1) default = rec := by
  rw [List.getD_eq_getElem?_getD, ← List.getLast?_eq_getElem?, h]
  rfl

theorem csTraceInvariant_step (p : CSParams) (s s' : CSLoopState)
    (hstep : csIterStep p s = Except.ok s') (hinv : csTraceInvariant s) :
    csTraceInvariant s' := by
  obtain ⟨hr0, o, imp, htr⟩ := csIterStep_ok_inv p s s' hstep
  obtain ⟨h1, h2, h3⟩ := hinv
  refine ⟨?_, ?_, ?_⟩
  · intro i hi
    rw [htr] at hi ⊢
    simp only [List.length_append, List.length_cons, List.length_nil] at hi
    by_cases hlt : i < s.trace.length
    · rw [getD_append_left_of_lt _ _ _ hlt]
      exact h1 i hlt
    · have heq : i = s.trace.length := by omega
      subst heq
      rw [getD_concat_length]
      exact hr0
  · intro i hi
    rw [htr] at hi ⊢
    simp only [List.length_append, List.length_cons, List.length_nil] at hi
    by_cases hlt : i + 1 < s.trace.length
    · rw [getD_append_left_of_lt _ _ _ hlt, getD_append_left_of_lt _ _ _ (by omega)]
      exact h2 i hlt
    · have heq : i + 1 = s.trace.length := by omega
      have hne : s.trace ≠ [] := by
        intro hnil
        rw [hnil] at heq
        simp at heq
      obtain ⟨lastRec, hlast⟩ := Option.ne_none_iff_exists'.mp
        (mt List.getLast?_eq_none_iff.mp hne)
      have hgetD : s.trace.getD i default = lastRec := by
        have : i = s.trace.length - 1 := by omega
        rw [this]
        exact getD_last_of_getLast s.trace lastRec hlast
      rw [heq, getD_concat_length, getD_append_left_of_lt _ _ _ (by omega), hgetD]
      exact h3 lastRec hlast
  · intro rec hrec
    rw [htr, List.getLast?_concat] at hrec
    have : rec = ⟨s.st.r0, s'.st.rCs, s'.st.r0, o, imp⟩ := by
      exact (Option.some.injEq _ _).mp hrec.symm
    subst this
    rfl

theorem csLoopGo_ok_invariant (p : CSParams) :
    ∀ fuel (s : CSLoopState), csTraceInvariant s →
      ∀ sF, csLoopGo p fuel s = Except.ok sF → csTraceInvariant sF := by
  intro fuel
  induction fuel with
  | zero =>
    intro s hinv sF h
    rw [csLoopGo] at h
    obtain rfl := (Except.ok.injEq _ _).mp h
    exact hinv
  | succ n ih =>
    intro s hinv sF h
    rw [csLoopGo] at h
    by_cases hg : loopGuard p.eps s.improvement = true
    · rw [if_pos hg] at h
      cases hstep : csIterStep p s with
      | error msg =>
        rw [hstep] at h
        exact absurd h (by simp)
      | ok s' =>
        rw [hstep] at h
        exact ih s' (csTraceInvariant_step p s s' hstep hinv) sF h
    · rw [if_neg hg] at h
      obtain rfl := (Except.ok.injEq _ _).mp h
      exact hinv

/-- C7: after every successful right-factor minimization, `r0` is refreshed
from row 0 of the newly solved `R`; that refreshed `r0` is the reference
vector read by the next iteration's `min_R` when it builds the degradation
constraint `multiply(1/r0[:-365], r[365:] - r[:-365]) == beta`. -/
theorem r0_refresh_feeds_next_degradation (p : CSParams) (fuel : ℕ) (st0 : CSState)
    (i : ℕ) (hi : i + 1 < (csRunTrace p fuel st0).length) :
    ((csRunTrace p fuel st0).getD i default).r0After
      = row0 ((csRunTrace p fuel st0).getD i default).rSolved ∧
    ((csRunTrace p fuel st0).getD (i + 1) default).r0Used
      = row0 ((csRunTrace p fuel st0).getD i default).rSolved ∧
    (∀ rRow b,
      degradationConstraint ((csRunTrace p fuel st0).getD (i + 1) default).r0Used rRow b ↔
      degradationConstraint (row0 ((csRunTrace p fuel st0).getD i default).rSolved) rRow b) := by
  cases hrun : csLoopGo p fuel (csInitialState p st0) with
  | error msg =>
    have htrace : csRunTrace p fuel st0 = [] := by
      unfold csRunTrace
      rw [hrun]
    rw [htrace] at hi
    simp at hi
  | ok sF =>
    have htrace : csRunTrace p fuel st0 = sF.trace := by
      unfold csRunTrace
      rw [hrun]
    rw [htrace] at hi ⊢
    have hinv0 : csTraceInvariant (csInitialState p st0) := by
      refine ⟨?_, ?_, ?_⟩
      · intro j hj
        simp [csInitialState] at hj
      · intro j hj
        simp [csInitialState] at hj
      · intro rec hrec
        simp [csInitialState] at hrec
    obtain ⟨h1, h2, _⟩ := csLoopGo_ok_invariant p fuel (csInitialState p st0) hinv0 sF hrun
    have ha := h1 i (by omega)
    have hb := h2 i hi
    refine ⟨ha, by rw [hb, ha], ?_⟩
    intro rRow b
    rw [hb, ha]

unseal Rat.add Rat.mul Rat.sub Rat.inv in
/-- C7 witness: a two-iteration run; iteration 1's degradation reference is
row 0 of iteration 0's solved `R`. -/
theorem r0_refresh_feeds_next_degradation_witness :
    0 + 1 < (csRunTrace twoIterCSParams 3 twoIterCSState).length ∧
    (((csRunTrace twoIterCSParams 3 twoIterCSState).getD 0 default).r0After
        = row0 (((csRunTrace twoIterCSParams 3 twoIterCSState).getD 0 default).rSolved) ∧
     ((csRunTrace twoIterCSParams 3 twoIterCSState).getD (0 + 1) default).r0Used
        = row0 (((csRunTrace twoIterCSParams 3 twoIterCSState).getD 0 default).rSolved) ∧
     (∀ rRow b,
        degradationConstraint
          ((csRunTrace twoIterCSParams 3 twoIterCSState).getD (0 + 1) default).r0Used rRow b ↔
        degradationConstraint
          (row0 (((csRunTrace twoIterCSParams 3 twoIterCSState).getD 0 default).rSolved))
          rRow b)) :=
  ⟨by decide,
    r0_refresh_feeds_next_degradation twoIterCSParams 3 twoIterCSState 0 (by decide)⟩

/-! ## C5: weight vector invariants under IEEE division -/

theorem FVal.inUnit_elim {v : FVal} (h : v.inUnit) :
    ∃ x : ℝ, v = FVal.fin x ∧ 0 ≤ x ∧ x ≤ 1 := by
  cases v with
  | fin x => exact ⟨x, rfl, h⟩
  | inf => exact h.elim
  | ninf => exact h.elim
  | nan => exact h.elim

theorem centered_ne_nil (d : QMat)
    (hm : maxListQ ((tcRawSignal d).map
      (fun x => percentile50 (tcRawSignal d) - x)) ≠ 0) :
    tcRawSignal d ≠ [] := by
  intro h
  rw [h] at hm
  exact hm rfl

theorem fdiv_clipLow0_inUnit (c : QVec) (hmpos : 0 < maxListQ c) (y : ℚ) (hy : y ∈ c) :
    FVal.inUnit ((fdiv y (maxListQ c)).clipLow0) := by
  rw [fdiv, if_neg (ne_of_gt hmpos)]
  simp only [FVal.clipLow0, FVal.inUnit]
  refine ⟨le_max_right _ 0, ?_⟩
  have h1 : y ≤ maxListQ c := mem_le_maxListQ hy
  have h2 : ((y : ℚ) : ℝ) / ((maxListQ c : ℚ) : ℝ) ≤ 1 := by
    rw [div_le_one (by exact_mod_cast hmpos)]
    exact_mod_cast h1
  exact max_le h2 zero_le_one

theorem temporalConsistency_inUnit (d : QMat)
    (hm : maxListQ ((tcRawSignal d).map
      (fun x => percentile50 (tcRawSignal d) - x)) ≠ 0) :
    ∀ i, i < (temporalConsistency d).length →
      FVal.inUnit ((temporalConsistency d).getD i FVal.nan) := by
  intro i hi
  have hmpos : 0 < maxListQ ((tcRawSignal d).map
      (fun x => percentile50 (tcRawSignal d) - x)) :=
    lt_of_le_of_ne
      (centered_maxListQ_nonneg (tcRawSignal d) (centered_ne_nil d hm)) (Ne.symm hm)
  have hlen : (temporalConsistency d).length
      = ((tcRawSignal d).map (fun x => percentile50 (tcRawSignal d) - x)).length := by
    simp [temporalConsistency]
  have hci : i < ((tcRawSignal d).map
      (fun x => percentile50 (tcRawSignal d) - x)).length := by
    omega
  have hentry : (temporalConsistency d).getD i FVal.nan
      = (fdiv (((tcRawSignal d).map
            (fun x => percentile50 (tcRawSignal d) - x)).getD i 0)
          (maxListQ ((tcRawSignal d).map
            (fun x => percentile50 (tcRawSignal d) - x)))).clipLow0 := by
    simp only [temporalConsistency]
    exact getD_map_general _ _ i hci 0 FVal.nan
  rw [hentry]
  exact fdiv_clipLow0_inUnit _ hmpos _ (getD_mem_of_lt _ i hci)

theorem energyScore_inUnit (d : QMat) (xEnv : QVec)
    (hde : ∀ j, j < (colSums d).length →
      ¬((colSums d).getD j 0 = 0 ∧ xEnv.getD j 0 = 0)) :
    ∀ i, i < (energyScore d xEnv).length →
      FVal.inUnit ((energyScore d xEnv).getD i FVal.nan) := by
  intro i hi
  have hlen : (energyScore d xEnv).length = min (colSums d).length xEnv.length := by
    simp [energyScore, List.length_zipWith]
  have h1 : i < (colSums d).length := by omega
  have h2 : i < xEnv.length := by omega
  have hentry : (energyScore d xEnv).getD i FVal.nan
      = (fdiv ((colSums d).getD i 0) (xEnv.getD i 0)).clip01 := by
    simp only [energyScore]
    exact getD_zipWith_general _ _ _ i h1 h2 0 0 FVal.nan
  rw [hentry, fdiv]
  by_cases hx : xEnv.getD i 0 = 0
  · rw [if_pos hx, if_neg (fun h0 => hde i h1 ⟨h0, hx⟩)]
    by_cases hpos : 0 < (colSums d).getD i 0
    · rw [if_pos hpos]
      simp only [FVal.clip01, FVal.inUnit]
      norm_num
    · rw [if_neg hpos]
      simp only [FVal.clip01, FVal.inUnit]
      norm_num
  · rw [if_neg hx]
    simp only [FVal.clip01, FVal.inUnit]
    exact ⟨le_min (le_max_right _ 0) zero_le_one, min_le_right _ 1⟩

theorem weightsRaw_inUnit (d : QMat) (xEnv : QVec)
    (hm : maxListQ ((tcRawSignal d).map
      (fun x => percentile50 (tcRawSignal d) - x)) ≠ 0)
    (hde : ∀ j, j < (colSums d).length →
      ¬((colSums d).getD j 0 = 0 ∧ xEnv.getD j 0 = 0)) :
    ∀ i, i < (weightsRaw d xEnv).length →
      FVal.inUnit ((weightsRaw d xEnv).getD i FVal.nan) := by
  intro i hi
  have hlen : (weightsRaw d xEnv).length
      = min (temporalConsistency d).length (energyScore d xEnv).length := by
    simp [weightsRaw, List.length_zipWith]
  have h1 : i < (temporalConsistency d).length := by omega
  have h2 : i < (energyScore d xEnv).length := by omega
  have hentry : (weightsRaw d xEnv).getD i FVal.nan
      = FVal.mul (((temporalConsistency d).getD i FVal.nan).powPos ((1 : ℝ)/10))
          (((energyScore d xEnv).getD i FVal.nan).powPos (1 - (1 : ℝ)/10)) := by
    simp only [weightsRaw]
    exact getD_zipWith_general _ _ _ i h1 h2 FVal.nan FVal.nan FVal.nan
  obtain ⟨t, htv, ht0, ht1⟩ := FVal.inUnit_elim (temporalConsistency_inUnit d hm i h1)
  obtain ⟨e, hev, he0, he1⟩ := FVal.inUnit_elim (energyScore_inUnit d xEnv hde i h2)
  rw [hentry, htv, hev]
  simp only [FVal.powPos, if_neg (not_lt.mpr ht0), if_neg (not_lt.mpr he0), FVal.mul,
    FVal.inUnit]
  constructor
  · exact mul_nonneg (Real.rpow_nonneg ht0 _) (Real.rpow_nonneg he0 _)
  · exact mul_le_one₀ (Real.rpow_le_one ht0 ht1 (by norm_num))
      (Real.rpow_nonneg he0 _) (Real.rpow_le_one he0 he1 (by norm_num))

theorem weightsThresholded_inUnit (d : QMat) (xEnv : QVec)
    (hm : maxListQ ((tcRawSignal d).map
      (fun x => percentile50 (tcRawSignal d) - x)) ≠ 0)
    (hde : ∀ j, j < (colSums d).length →
      ¬((colSums d).getD j 0 = 0 ∧ xEnv.getD j 0 = 0)) :
    ∀ i, i < (weightsThresholded d xEnv).length →
      FVal.inUnit ((weightsThresholded d xEnv).getD i FVal.nan) := by
  intro i hi
  have hlen : (weightsThresholded d xEnv).length = (weightsRaw d xEnv).length := by
    simp [weightsThresholded]
  have h1 : i < (weightsRaw d xEnv).length := by omega
  have hentry : (weightsThresholded d xEnv).getD i FVal.nan
      = if FVal.lt ((weightsRaw d xEnv).getD i FVal.nan) 0.6 then FVal.fin 0
        else (weightsRaw d xEnv).getD i FVal.nan := by
    simp only [weightsThresholded]
    exact getD_map_general _ _ i h1 FVal.nan FVal.nan
  rw [hentry]
  by_cases h : FVal.lt ((weightsRaw d xEnv).getD i FVal.nan) 0.6
  · rw [if_pos h]
    exact ⟨le_refl 0, zero_le_one⟩
  · rw [if_neg h]
    exact weightsRaw_inUnit d xEnv hm hde i h1

